import Mathlib

/-
Verification development for the HPELogProcessing repository.

The log-processing code of the repository works on plain Python strings.
Here text is shallowly embedded as `List Char`; each Python string helper
and each regular-expression search used by the sources is rendered as an
executable Lean function on character lists, written to follow the
leftmost-match / lazy-capture semantics of the `re` module on the concrete
patterns that appear in the sources (all of which are sequences of literal
pieces separated by `.*?` or by a negated-character lazy gap).

Sources embedded below:
  - src/success-failure.py : update-outcome classifiers.
  - src/2.py               : record schema and field-recovery routines.
-/

/-- `chars s` is the character list of a string literal; Python strings are
modelled as `List Char`. -/
def chars (s : String) : List Char := s.data

/-- The `\x7b` character, written by code point so that no brace appears in a
character literal. -/
def openBrace : Char := Char.ofNat 123

/-- The `\x7d` character. -/
def closeBrace : Char := Char.ofNat 125

/-- The double-quote character. -/
def dquote : Char := Char.ofNat 34

/-- `leadsWith pat s` is true when `pat` is an initial segment of `s`
(Python `s.startswith(pat)`). -/
def leadsWith : List Char → List Char → Bool
  | [], _ => true
  | _ :: _, [] => false
  | p :: ps, c :: cs => p == c && leadsWith ps cs

/-- Split at the first occurrence of `pat` (Python `s.find`): returns the text
before the occurrence and the text after it. -/
def splitAtFirst (pat : List Char) : List Char → Option (List Char × List Char)
  | [] => if leadsWith pat [] then some ([], []) else none
  | c :: rest =>
    if leadsWith pat (c :: rest) then some ([], (c :: rest).drop pat.length)
    else
      match splitAtFirst pat rest with
      | some (pre, post) => some (c :: pre, post)
      | none => none

/-- Split at the last occurrence of `pat` (Python `s.rindex`). -/
def splitAtLast (pat : List Char) : List Char → Option (List Char × List Char)
  | [] => if leadsWith pat [] then some ([], []) else none
  | c :: rest =>
    match splitAtLast pat rest with
    | some (pre, post) => some (c :: pre, post)
    | none =>
      if leadsWith pat (c :: rest) then some ([], (c :: rest).drop pat.length)
      else none

/-- The suffix of `s` that begins at the first occurrence of `pat`. -/
def dropToOccur (pat : List Char) : List Char → Option (List Char)
  | [] => if leadsWith pat [] then some [] else none
  | c :: rest =>
    if leadsWith pat (c :: rest) then some (c :: rest) else dropToOccur pat rest

/-- Python's substring test `pat in s`. -/
def strContains (pat s : List Char) : Bool := (dropToOccur pat s).isSome

/-- Number of non-overlapping occurrences of `pat` in `s`, scanning left to
right — the number of matches `re.finditer(re.escape(pat), s)` yields.
(For an empty pattern `finditer` yields `len s + 1` empty matches.) -/
def occurCount (pat s : List Char) : Nat :=
  match pat, s with
  | [], s => s.length + 1
  | _ :: _, [] => 0
  | p :: ps, c :: rest =>
    if leadsWith (p :: ps) (c :: rest) then
      1 + occurCount (p :: ps) (rest.drop ps.length)
    else
      occurCount (p :: ps) rest
termination_by s.length
decreasing_by
  · simp only [List.length_cons, List.length_drop]
    omega
  · simp only [List.length_cons]
    omega

/-- Leftmost-match regex search driver: try the matcher `f` at every start
position from the left and return the first success (the semantics of
`re.search` for the literal-piece patterns modelled here). -/
def searchSuffix {α : Type} (f : List Char → Option α) : List Char → Option α
  | [] => f []
  | c :: rest =>
    match f (c :: rest) with
    | some a => some a
    | none => searchSuffix f rest

/-- Search for a leading literal `lit` followed by whatever `capAt` matches;
when the literal matches at a position but `capAt` fails there, the search
backtracks to the next occurrence of the literal, as `re.search` does. -/
def searchPat {α : Type} (lit : List Char) (capAt : List Char → Option α)
    (s : List Char) : Option α :=
  searchSuffix (fun t => if leadsWith lit t then capAt (t.drop lit.length) else none) s

/-- Capture for a lazy gap `(.*?)` followed by the literal `trailer`
(newlines never reach these captures: they are applied inside one line). -/
def capTo (trailer : List Char) (s : List Char) : Option (List Char) :=
  (splitAtFirst trailer s).map Prod.fst

/-- Capture for a lazy negated gap `([^X]*?)` followed by a literal trailer
that begins with the excluded character `stop`: the capture runs to the
first occurrence of `stop`, which must start the trailer. -/
def capStop (stop : Char) (trailer : List Char) (s : List Char) : Option (List Char) :=
  if leadsWith trailer (s.dropWhile (fun c => c != stop)) then
    some (s.takeWhile (fun c => c != stop))
  else none

/-- ASCII whitespace recognised by Python's `str.strip` and by `\s`
(the logs under analysis are ASCII). -/
def isSpace (c : Char) : Bool :=
  c == ' ' || c == '\t' || c == '\n' || c == '\r' ||
    c == Char.ofNat 11 || c == Char.ofNat 12

/-- A `\w` word character (ASCII range, as appearing in these logs). -/
def isWordChar (c : Char) : Bool := c.isAlphanum || c == '_'

/-- Python `str.strip()` on ASCII whitespace. -/
def strip (s : List Char) : List Char :=
  ((s.dropWhile isSpace).reverse.dropWhile isSpace).reverse

/-- Split text into lines at `\n`. `readlines()` keeps the terminator while
this drops it; every per-line pattern modelled below is insensitive to a
trailing newline (none can match across or beyond it), so the two views
classify identically. -/
def splitLines : List Char → List (List Char)
  | [] => [[]]
  | c :: rest =>
    let r := splitLines rest
    if c = '\n' then [] :: r
    else
      match r with
      | [] => [[c]]
      | l :: ls => (c :: l) :: ls

/-! ## src/success-failure.py -/

/-- The marker `"update_type":` searched for by `extract_last_update_type`. -/
def ukey : List Char := chars "\"update_type\":"

/-- Embeds `extract_last_update_type` (src/success-failure.py lines 4-34):
take the last occurrence of the marker, then the text between the next two
double quotes; `none` when the marker or either quote is missing. -/
def extract_last_update_type (text : List Char) : Option (List Char) :=
  match splitAtLast ukey text with
  | none => none
  | some (_, post) =>
    match splitAtFirst [dquote] post with
    | none => none
    | some (_, afterOpen) =>
      match splitAtFirst [dquote] afterOpen with
      | none => none
      | some (value, _) => some value

/-- Per-line matcher for `Updating iLO with fwInstallState:\s*(\w+)` with
`re.IGNORECASE`: the literal is compared case-insensitively, then whitespace
is skipped and a maximal non-empty word-character run is captured with its
original case. -/
def fwLineState (line : List Char) : Option (List Char) :=
  searchSuffix
    (fun t =>
      let lit := chars "updating ilo with fwinstallstate:"
      if leadsWith lit ((t.take lit.length).map Char.toLower) then
        let r := (t.drop lit.length).dropWhile isSpace
        let w := r.takeWhile isWordChar
        if w.isEmpty then none else some w
      else none)
    line

/-- Embeds `check_firmware_update_status` (src/success-failure.py lines
36-58), the online classifier: collect the captured state of every matching
line; no match is failure; otherwise success iff the last captured state is
exactly `Activated`. (The `[-1]` indexing of the source is rendered with
`getLast?`; the file-not-found path is outside the text model.) -/
def check_firmware_update_status (lines : List (List Char)) : Bool :=
  let fw_states := lines.filterMap fwLineState
  match fw_states.getLast? with
  | none => false
  | some finalState => finalState = chars "Activated"

/-- Whole-body matcher for the offline pattern
`fetchFailedComponentList Total number of failed components for server
name: .*?, bay .*? uuid: .*? 0` — the literal pieces must occur in order
within a single line (`.` does not match a newline). -/
def offline_fetch_ok (content : List Char) : Bool :=
  (searchSuffix
    (fun t =>
      let lit := chars
        "fetchFailedComponentList Total number of failed components for server name: "
      if leadsWith lit t then
        let line := (t.drop lit.length).takeWhile (fun c => c != '\n')
        match splitAtFirst (chars ", bay ") line with
        | none => none
        | some (_, r2) =>
          match splitAtFirst (chars " uuid: ") r2 with
          | none => none
          | some (_, r3) =>
            if strContains (chars " 0") r3 then some () else none
      else none)
    content).isSome

/-- Whole-body matcher for the offline completion marker. -/
def absaroka_ok (content : List Char) : Bool :=
  strContains (chars "Absaroka Firmware update is complete for server:") content

/-- Embeds `check_offline_firmware_update` (src/success-failure.py lines
60-88). Note: the source returns `False` on BOTH branches — line 78 returns
`False` immediately after printing the success message, so the function's
boolean result is `false` even when both offline markers are present. -/
def check_offline_firmware_update (content : List Char) : Bool :=
  if offline_fetch_ok content && absaroka_ok content then
    false
  else
    false

/-- Embeds `determine_update_type_and_check` (src/success-failure.py lines
90-116): dispatch on the update type recovered from the install-set log.
The comparison is by string equality against exactly `Online`/`online` and
`Offline`/`offline`; anything else (including a missing marker) yields
`false`. The two file reads are modelled by passing both file contents. -/
def determine_update_type_and_check (installLog ciDebug : List Char) : Bool :=
  match extract_last_update_type installLog with
  | some ut =>
    if ut = chars "Online" ∨ ut = chars "online" then
      check_firmware_update_status (splitLines ciDebug)
    else if ut = chars "Offline" ∨ ut = chars "offline" then
      check_offline_firmware_update ciDebug
    else false
  | none => false

/-! ## src/2.py — canonical record schema -/

/-- The `OneView` group of the record (src/2.py lines 15-18). -/
structure OneViewInfo where
  ovVersion : List Char
  ovType : List Char
deriving DecidableEq, Repr

/-- The `Server` group (src/2.py lines 19-28); keys such as `"iLO Model"`
become `iloModel`. -/
structure ServerInfo where
  uuid : List Char
  gen : List Char
  iloModel : List Char
  os : List Char
  osVersion : List Char
  sutMode : List Char
  sutServiceState : List Char
  sutRunningVersion : List Char
deriving DecidableEq, Repr

/-- The `Firmware Update` group (src/2.py lines 29-38). -/
structure FirmwareUpdateInfo where
  sppUsed : List Char
  installationMethod : List Char
  sutMode : List Char
  sutServiceState : List Char
  sutRunningVersion : List Char
  policy : List Char
  installState : List Char
  force : List Char
deriving DecidableEq, Repr

/-- The `Install set Response` group (src/2.py lines 39-44). -/
structure InstallSetResponse where
  spp : List Char
  retry : List Char
  dependency : List Char
  sumVersion : List Char
deriving DecidableEq, Repr

/-- One entry of the `Components` list (src/2.py lines 305-311). -/
structure Component where
  installedVersion : List Char
  toVersion : List Char
  deviceClass : List Char
  targetGUID : List Char
  fileName : List Char
deriving DecidableEq, Repr

/-- The whole record built by `initialize_dictionary`. -/
structure InfoDict where
  oneView : OneViewInfo
  server : ServerInfo
  firmwareUpdate : FirmwareUpdateInfo
  installSetResponse : InstallSetResponse
  components : List Component
deriving DecidableEq, Repr

/-- Embeds `initialize_dictionary` (src/2.py lines 12-46): every scalar field
starts as the empty string, the component list empty. -/
def initialize_dictionary : InfoDict :=
  { oneView := { ovVersion := [], ovType := [] }
    server :=
      { uuid := [], gen := [], iloModel := [], os := [], osVersion := []
        sutMode := [], sutServiceState := [], sutRunningVersion := [] }
    firmwareUpdate :=
      { sppUsed := [], installationMethod := [], sutMode := []
        sutServiceState := [], sutRunningVersion := [], policy := []
        installState := [], force := [] }
    installSetResponse := { spp := [], retry := [], dependency := [], sumVersion := [] }
    components := [] }

/-! ## src/2.py — extract_firmware_log_info -/

/-- Running values of the first scan loop of `extract_firmware_log_info`
(src/2.py lines 226-260): the local variables `spp_used`, `sut_mode`,
`sut_service_state`, `sut_running_version`. -/
structure FwScanState where
  spp : List Char
  sutMode : List Char
  sutState : List Char
  sutVersion : List Char
deriving DecidableEq, Repr

/-- One iteration of the first loop of `extract_firmware_log_info`
(src/2.py lines 232-260): the baseline-compliance capture and, on the SUT
status line for this uuid, the bracketed section's `Mode:`/`State:`/
`Version:` captures; each local keeps its previous value when its pattern
does not match, so the last matching line wins. -/
def fwScanStep (uuid : List Char) (st : FwScanState) (line : List Char) : FwScanState :=
  let st :=
    if strContains (chars "The selected baseline") line &&
        strContains (chars "is absaroka compliant = true") line then
      match searchPat (chars "The selected baseline ")
          (capTo (chars " is absaroka compliant = true")) line with
      | some c => { st with spp := c }
      | none => st
    else st
  if strContains (chars "Successfully got SUT status from server via RIS for " ++ uuid) line then
    match searchPat [ '[' ] (capTo [ ']' ]) line with
    | some sect =>
      let st :=
        match searchPat (chars "Mode: ") (capTo (chars "Service")) sect with
        | some m => { st with sutMode := strip m }
        | none => st
      let st :=
        match searchPat (chars "State: ") (capStop 'V' (chars "Version:")) sect with
        | some m => { st with sutState := strip m }
        | none => st
      match searchPat (chars "Version: ") (capStop 'T' (chars "Type:")) sect with
      | some m => { st with sutVersion := strip m }
      | none => st
    | none => st
  else st

/-- The stripped capture of
`FirmwareDriverBaselineSettings on server .*? is (.*)` on a line that also
contains the two substrings checked at src/2.py line 264; `none` when the
substring checks or the regex fail (in which case the source keeps
scanning earlier lines). -/
def fdbsCapture (uuid line : List Char) : Option (List Char) :=
  if strContains (chars "FirmwareDriverBaselineSettings on server") line &&
      strContains uuid line then
    (searchPat (chars "FirmwareDriverBaselineSettings on server ")
      (fun s => (splitAtFirst (chars " is ") s).map Prod.snd) line).map strip
  else none

/-- The capture of the nested pattern `"State"\s*:\s*"([^"]*)"` searched
inside the stripped capture (src/2.py lines 269-270). -/
def stateOfCapture (c : List Char) : Option (List Char) :=
  searchPat (dquote :: chars "State" ++ [dquote])
    (fun s =>
      let s1 := s.dropWhile isSpace
      match s1 with
      | ':' :: s2 =>
        let s3 := s2.dropWhile isSpace
        match s3 with
        | q :: r =>
          if q = dquote then
            if (r.dropWhile (fun c => c != dquote)).isEmpty then none
            else some (r.takeWhile (fun c => c != dquote))
          else none
        | [] => none
      | _ => none)
    c

/-- The final value of the local `install_state` produced by one matching
line (src/2.py lines 264-272): the nested quoted State value when present,
the literal `Unknown` otherwise. -/
def installStateOfLine (uuid line : List Char) : Option (List Char) :=
  (fdbsCapture uuid line).map
    (fun c => (stateOfCapture c).getD (chars "Unknown"))

/-- The reversed-order scan of src/2.py lines 262-272: the first line of the
given (already reversed) list that matches stops the scan. -/
def findInstallState (uuid : List Char) : List (List Char) → Option (List Char)
  | [] => none
  | l :: rest =>
    match installStateOfLine uuid l with
    | some v => some v
    | none => findInstallState uuid rest

/-- Embeds `extract_firmware_log_info` (src/2.py lines 221-284): the scan
loops followed by the UNCONDITIONAL writes of lines 274-281 — every listed
field receives the recovered value even when that value is the empty
string. -/
def extract_firmware_log_info (lines : List (List Char)) (uuid : List Char)
    (d : InfoDict) : InfoDict :=
  let st := lines.foldl (fwScanStep uuid) { spp := [], sutMode := [], sutState := [], sutVersion := [] }
  let instState := (findInstallState uuid lines.reverse).getD []
  { d with
    firmwareUpdate :=
      { d.firmwareUpdate with
        sppUsed := st.spp
        sutMode := st.sutMode
        sutServiceState := st.sutState
        sutRunningVersion := st.sutVersion
        installState := instState }
    server :=
      { d.server with
        sutMode := st.sutMode
        sutServiceState := st.sutState
        sutRunningVersion := st.sutVersion } }

/-! ## src/2.py — extract_ilo_model -/

/-- The decoded `hapi.HostOS` object of a `Request = ` line
(src/2.py lines 85-88). -/
structure HostOS where
  osName : List Char
  osVersion : List Char
deriving DecidableEq, Repr

/-- One decoded `fw_inventory` item (src/2.py lines 99-101). -/
structure FwInvItem where
  id : List Char
  name : List Char
deriving DecidableEq, Repr

/-- The parts of a decoded `Request = ` JSON used by `extract_ilo_model`:
`hostOS = none` renders an absent or empty (falsy) `HostOS` object. -/
structure RequestData where
  hostOS : Option HostOS
  fwInventory : List FwInvItem
deriving DecidableEq, Repr

/-- One iteration of the `fw_inventory` loop of `extract_ilo_model`
(src/2.py lines 99-114): an item with `Id = "1"` and a non-empty `Name`
rewrites the iLO model, and the generation when the name mentions
iLO 5/6/7 (the generation keeps its old value for other names). -/
def iloInvStep (acc : InfoDict) (item : FwInvItem) : InfoDict :=
  if item.id = chars "1" then
    if item.name.isEmpty then acc
    else
      let acc1 := { acc with server := { acc.server with iloModel := item.name } }
      if strContains (chars "iLO 5") item.name then
        { acc1 with server := { acc1.server with gen := chars "Gen10" } }
      else if strContains (chars "iLO 6") item.name then
        { acc1 with server := { acc1.server with gen := chars "Gen11" } }
      else if strContains (chars "iLO 7") item.name then
        { acc1 with server := { acc1.server with gen := chars "Gen12" } }
      else acc1
  else acc

/-- Embeds the body of `extract_ilo_model` applied to the decoded Request
JSON of the first `Request = ` line (src/2.py lines 85-117): the OS fields
are written ONLY when the recovered `OsName` is non-empty (line 89), then
the inventory loop runs. File iteration and JSON decoding are performed by
the caller and are not part of the merge behaviour under study. -/
def extract_ilo_model_apply (req : RequestData) (d : InfoDict) : InfoDict :=
  let d1 :=
    match req.hostOS with
    | some h =>
      if h.osName.isEmpty then d
      else
        { d with server := { d.server with os := h.osName, osVersion := h.osVersion } }
    | none => d
  req.fwInventory.foldl iloInvStep d1

/-! ## src/2.py — process_dependency_failure_json -/

/-- One decoded element of a component's `InstalledVersion` list
(src/2.py lines 321-325); `none` renders an absent key. -/
structure InstalledVersionEntry where
  version : Option (List Char)
  target : Option (List Char)
deriving DecidableEq, Repr

/-- One decoded element of `sequence_details` (src/2.py lines 304-317).
The source distinguishes an absent `InstalledVersion` key from an empty
list only to skip the same loop either way, so both are rendered as `[]`. -/
structure SequenceComponent where
  packageVersion : Option (List Char)
  filename : Option (List Char)
  installedVersion : List InstalledVersionEntry
deriving DecidableEq, Repr

/-- The decoded `install_set` object (src/2.py lines 293-297). -/
structure InstallSetData where
  name : Option (List Char)
  description : Option (List Char)
deriving DecidableEq, Repr

/-- A decoded `DependencyFailure.json` document. -/
structure DependencyData where
  installSet : Option InstallSetData
  sequenceDetails : Option (List SequenceComponent)
deriving DecidableEq, Repr

/-- Embeds the per-item `component_dict` construction of
`process_dependency_failure_json` (src/2.py lines 305-328): the loop over
`InstalledVersion` overwrites the two fields on every entry that carries
the key, so the LAST entry carrying a key wins. -/
def mkComponent (comp : SequenceComponent) : Component :=
  let ivtg :=
    if comp.installedVersion.isEmpty then (([] : List Char), ([] : List Char))
    else
      comp.installedVersion.foldl
        (fun acc e =>
          (match e.version with | some v => v | none => acc.1,
           match e.target with | some t => t | none => acc.2))
        ([], [])
  { installedVersion := ivtg.1
    toVersion := match comp.packageVersion with | some v => v | none => []
    deviceClass := []
    targetGUID := ivtg.2
    fileName := match comp.filename with | some f => f | none => [] }

/-- Embeds `process_dependency_failure_json` (src/2.py lines 286-335)
applied to an already decoded document: optional install-set writes, then
the component list is CLEARED (line 300) and rebuilt by appending one
entry per `sequence_details` item. -/
def process_dependency_failure_json (data : DependencyData) (d : InfoDict) : InfoDict :=
  let d1 :=
    match data.installSet with
    | some isd =>
      let da :=
        match isd.name with
        | some n => { d with installSetResponse := { d.installSetResponse with spp := n } }
        | none => d
      match isd.description with
      | some ds =>
        { da with installSetResponse := { da.installSetResponse with dependency := ds } }
      | none => da
    | none => d
  let d2 := { d1 with components := [] }
  match data.sequenceDetails with
  | some seq =>
    seq.foldl
      (fun acc comp => { acc with components := acc.components ++ [mkComponent comp] })
      d2
  | none => d2

/-! ## src/2.py — extract_sut_info_from_log_content -/

/-- The dictionary returned by `extract_sut_info_from_log_content`
(src/2.py lines 351-355); keys `"SUT Mode"`, `"SUT Service State"`,
`"SUT Running Version"`. -/
structure SutInfo where
  mode : List Char
  state : List Char
  version : List Char
deriving DecidableEq, Repr

/-- The capture of the first match of
`Successfully got SUT status from server via RIS for {uuid}, \[(.*?)\]`
over the whole log content (`re.findall(...)[0]`, src/2.py lines 358-362).
The lazy gap cannot cross a newline. -/
def sutSection (content uuid : List Char) : Option (List Char) :=
  searchPat
    (chars "Successfully got SUT status from server via RIS for " ++ uuid ++ chars ", [")
    (fun s => (splitAtFirst [ ']' ] (s.takeWhile (fun c => c != '\n'))).map Prod.fst)
    content

/-- Embeds `extract_sut_info_from_log_content` (src/2.py lines 349-380).
Line 378 of the source assigns `mode_match.group(1)` — the MODE capture —
to `"SUT Running Version"`. When the Version sub-pattern matches while the
Mode sub-pattern does not, that line raises `AttributeError` (there is no
enclosing try), rendered here as `none`. -/
def extract_sut_info_from_log_content (content uuid : List Char) : Option SutInfo :=
  let dflt : SutInfo :=
    { mode := chars "Not Available", state := chars "Not Available"
      version := chars "Not Available" }
  match sutSection content uuid with
  | none => some dflt
  | some sect =>
    let modeM := searchPat (chars "Mode: ") (capStop 'S' (chars "State:")) sect
    let stateM := searchPat (chars "State: ") (capStop 'V' (chars "Version:")) sect
    let versionM := searchPat (chars "Version: ") (capStop 'T' (chars "Type:")) sect
    let i1 := match modeM with | some m => { dflt with mode := strip m } | none => dflt
    let i2 := match stateM with | some st => { i1 with state := strip st } | none => i1
    match versionM with
    | some _ =>
      match modeM with
      | some m => some { i2 with version := strip m }
      | none => none
    | none => some i2

/-! ## A JSON value model and decoder for `json.loads`

`extract_isr` (src/2.py lines 129-195) passes the brace-balanced span to
`json.loads`. The decoder is modelled here for the fragment exercised by
these logs: objects, arrays, strings with the standard single-character
escapes and `\uXXXX`, integers, booleans and null (float literals are not
modelled and are rejected). Duplicate object keys follow `dict` semantics:
the last one wins (`pyGet` reads the last binding). -/

inductive Json where
  | null : Json
  | bool : Bool → Json
  | num : Int → Json
  | str : List Char → Json
  | arr : List Json → Json
  | obj : List (List Char × Json) → Json

/-- Skip JSON interelement whitespace. -/
def skipWs (s : List Char) : List Char :=
  s.dropWhile (fun c => c == ' ' || c == '\t' || c == '\n' || c == '\r')

/-- Single-character string escapes of JSON. -/
def escChar (e : Char) : Option Char :=
  if e = dquote then some dquote
  else if e = '\\' then some '\\'
  else if e = '/' then some '/'
  else if e = 'n' then some '\n'
  else if e = 't' then some '\t'
  else if e = 'r' then some '\r'
  else if e = 'b' then some (Char.ofNat 8)
  else if e = 'f' then some (Char.ofNat 12)
  else none

/-- Value of a hex digit. -/
def hexVal (c : Char) : Option Nat :=
  if '0' ≤ c ∧ c ≤ '9' then some (c.toNat - '0'.toNat)
  else if 'a' ≤ c ∧ c ≤ 'f' then some (c.toNat - 'a'.toNat + 10)
  else if 'A' ≤ c ∧ c ≤ 'F' then some (c.toNat - 'A'.toNat + 10)
  else none

/-- `\uXXXX` escape: four hex digits (surrogate pairs are not modelled). -/
def hex4 : List Char → Option (Char × List Char)
  | a :: b :: c :: d :: rest =>
    match hexVal a, hexVal b, hexVal c, hexVal d with
    | some x, some y, some z, some w =>
      some (Char.ofNat (((x * 16 + y) * 16 + z) * 16 + w), rest)
    | _, _, _, _ => none
  | _ => none

/-- Parse the body of a JSON string, the opening quote already consumed. -/
def pString (fuel : Nat) (s : List Char) : Option (List Char × List Char) :=
  match fuel, s with
  | 0, _ => none
  | _, [] => none
  | fu + 1, c :: rest =>
    if c = dquote then some ([], rest)
    else if c = '\\' then
      match rest with
      | [] => none
      | e :: rest2 =>
        match escChar e with
        | some ec => (pString fu rest2).map (fun p => (ec :: p.1, p.2))
        | none =>
          if e = 'u' then
            match hex4 rest2 with
            | some (ch, rest3) => (pString fu rest3).map (fun p => (ch :: p.1, p.2))
            | none => none
          else none
    else (pString fu rest).map (fun p => (c :: p.1, p.2))

/-- Parse a JSON integer; a following `.`, `e` or `E` (a float literal) is
rejected as outside the modelled fragment. -/
def pNumber (s : List Char) : Option (Int × List Char) :=
  let (negSign, s1) := match s with
    | '-' :: r => (true, r)
    | _ => (false, s)
  let ds := s1.takeWhile Char.isDigit
  let rest := s1.dropWhile Char.isDigit
  if ds.isEmpty then none
  else
    match rest with
    | '.' :: _ => none
    | 'e' :: _ => none
    | 'E' :: _ => none
    | _ =>
      let n : Nat := ds.foldl (fun acc c => acc * 10 + (c.toNat - '0'.toNat)) 0
      some (if negSign then -(n : Int) else (n : Int), rest)

mutual

/-- Parse one JSON value. -/
def pVal : Nat → List Char → Option (Json × List Char)
  | 0, _ => none
  | fu + 1, s =>
    match skipWs s with
    | [] => none
    | c :: rest =>
      if c = openBrace then pObjBody fu rest []
      else if c = '[' then pArrBody fu rest []
      else if c = dquote then
        (pString (rest.length + 1) rest).map (fun p => (Json.str p.1, p.2))
      else if c = 't' then
        if leadsWith (chars "rue") rest then some (Json.bool true, rest.drop 3) else none
      else if c = 'f' then
        if leadsWith (chars "alse") rest then some (Json.bool false, rest.drop 4) else none
      else if c = 'n' then
        if leadsWith (chars "ull") rest then some (Json.null, rest.drop 3) else none
      else (pNumber (c :: rest)).map (fun p => (Json.num p.1, p.2))

/-- Parse array elements after `[`, accumulating into `acc`. -/
def pArrBody : Nat → List Char → List Json → Option (Json × List Char)
  | 0, _, _ => none
  | fu + 1, s, acc =>
    match skipWs s with
    | [] => none
    | c :: rest =>
      if c = ']' && acc.isEmpty then some (Json.arr [], rest)
      else
        match pVal fu (c :: rest) with
        | none => none
        | some (v, r1) =>
          match skipWs r1 with
          | ',' :: r2 => pArrBody fu r2 (acc ++ [v])
          | ']' :: r2 => some (Json.arr (acc ++ [v]), r2)
          | _ => none

/-- Parse object members after the opening brace, accumulating into `acc`. -/
def pObjBody : Nat → List Char → List (List Char × Json) → Option (Json × List Char)
  | 0, _, _ => none
  | fu + 1, s, acc =>
    match skipWs s with
    | [] => none
    | c :: rest =>
      if c = closeBrace && acc.isEmpty then some (Json.obj [], rest)
      else if c = dquote then
        match pString (rest.length + 1) rest with
        | none => none
        | some (k, r1) =>
          match skipWs r1 with
          | ':' :: r2 =>
            match pVal fu r2 with
            | none => none
            | some (v, r3) =>
              match skipWs r3 with
              | d :: r4 =>
                if d = ',' then pObjBody fu r4 (acc ++ [(k, v)])
                else if d = closeBrace then some (Json.obj (acc ++ [(k, v)]), r4)
                else none
              | [] => none
          | _ => none
      else none

end

/-- `json.loads`: one value, then only trailing whitespace (otherwise the
decoder raises "Extra data"). -/
def json_loads (s : List Char) : Option Json :=
  match pVal (s.length + 1) s with
  | some (v, rest) => if (skipWs rest).isEmpty then some v else none
  | none => none

/-- Python `dict.get(k, dflt)`: `none` renders the `AttributeError` raised
when the receiver is not a dict. Duplicate keys keep the last binding. -/
def pyGet (j : Json) (k : List Char) (dflt : Json) : Option Json :=
  match j with
  | Json.obj fields =>
    some ((((fields.filter (fun p => p.1 == k)).getLast?).map Prod.snd).getD dflt)
  | _ => none

/-- The string payload of a JSON value as assigned into the record. The
source stores whatever `dict.get` returned; the logs under analysis only
put strings (or the string default) here, which is the fragment modelled. -/
def jsonAsStr : Json → List Char
  | Json.str s => s
  | _ => []

/-- All elements of a list of JSON values as strings, or `none` — rendering
the `TypeError` that `", ".join` raises on a non-string element. -/
def strList : List Json → Option (List (List Char))
  | [] => some []
  | Json.str s :: rest => (strList rest).map (fun l => s :: l)
  | _ => none

/-- `", ".join(l)` for a decoded JSON list (src/2.py line 190); non-list or
non-string payloads render the exception as `none`. -/
def joinStrs : Json → Option (List Char)
  | Json.arr l => (strList l).map (fun ls => List.intercalate (chars ", ") ls)
  | _ => none

/-! ## src/2.py — extract_isr -/

/-- The signed brace count of a character: `+1` for an opening brace, `-1`
for a closing brace, `0` otherwise. -/
def braceDelta (c : Char) : Int :=
  if c = openBrace then 1 else if c = closeBrace then -1 else 0

/-- Net brace balance of a span. -/
def braceNet : List Char → Int
  | [] => 0
  | c :: rest => braceDelta c + braceNet rest

/-- Embeds the accumulation loop of src/2.py lines 168-177 with running
count `n`: append each character; an opening brace increments the count, a
closing brace decrements it and stops the loop exactly when the count
reaches zero. When the text runs out first, the whole text has been
accumulated. -/
def braceLoop (s : List Char) (n : Int) : List Char :=
  match s with
  | [] => []
  | c :: rest =>
    if c = openBrace then c :: braceLoop rest (n + 1)
    else if c = closeBrace then
      if n - 1 = 0 then [c] else c :: braceLoop rest (n - 1)
    else c :: braceLoop rest n

/-- The `json_str` accumulated by the loop, starting from count `0` as the
source does (the loop is always entered at an opening brace). -/
def braceSpan (s : List Char) : List Char := braceLoop s 0

/-- The suffix of the log starting at the opening brace that follows the
second occurrence of the uuid — the text the brace loop consumes. -/
def isrRemainder (uuid content : List Char) : Option (List Char) :=
  match dropToOccur uuid content with
  | none => none
  | some t =>
    match dropToOccur uuid (t.drop uuid.length) with
    | none => none
    | some t2 => dropToOccur [openBrace] t2

/-- The span handed to the JSON decoder by `extract_isr`. -/
def isrSpan (uuid content : List Char) : Option (List Char) :=
  (isrRemainder uuid content).map braceSpan

/-- Embeds `extract_isr` (src/2.py lines 129-195) on the content of the
install-set log. The result pairs the raised error message (`none` on
success) with the record as left by the call: every `raise` before line 188
leaves the record untouched, while exceptions between the field writes keep
the writes already performed — faithful to mutation followed by `raise`.
The serverlogs-directory existence check of lines 137-140 touches the
filesystem, not the log text, and is outside this model. The uuid is read
from the record (line 133); an empty uuid is falsy and raises at once.
`finditer` counts non-overlapping occurrences, matched here by resuming
the occurrence search after the matched uuid. -/
def extract_isr (content : List Char) (d : InfoDict) : Option (List Char) × InfoDict :=
  let uuid := d.server.uuid
  if uuid.isEmpty then (some (chars "Server UUID not found in info_dict"), d)
  else
    match dropToOccur uuid content with
    | none => (some (chars "Second UUID match not found in the log file."), d)
    | some t =>
      match dropToOccur uuid (t.drop uuid.length) with
      | none => (some (chars "Second UUID match not found in the log file."), d)
      | some t2 =>
        match dropToOccur [openBrace] t2 with
        | none => (some (chars "No JSON object found after second UUID."), d)
        | some t3 =>
          let jsonStr := braceSpan t3
          match json_loads jsonStr with
          | none => (some (chars "Failed to decode JSON."), d)
          | some isr =>
            match pyGet isr (chars "hapi") (Json.obj []) with
            | none => (some (chars "AttributeError"), d)
            | some hapi =>
              match pyGet hapi (chars "install_set") (Json.obj []) with
              | none => (some (chars "AttributeError"), d)
              | some inst =>
                match pyGet inst (chars "Name") (Json.str []) with
                | none => (some (chars "AttributeError"), d)
                | some nameJ =>
                  let d1 :=
                    { d with installSetResponse :=
                        { d.installSetResponse with spp := jsonAsStr nameJ } }
                  let d2 :=
                    { d1 with installSetResponse :=
                        { d1.installSetResponse with retry := chars "No" } }
                  match pyGet hapi (chars "dependency_failures") (Json.arr []) with
                  | none => (some (chars "AttributeError"), d2)
                  | some depJ =>
                    match joinStrs depJ with
                    | none => (some (chars "TypeError"), d2)
                    | some joined =>
                      let dep := if joined.isEmpty then chars "None" else joined
                      (none,
                        { d2 with installSetResponse :=
                            { d2.installSetResponse with
                              dependency := dep
                              sumVersion := chars "sum service" } })

/-! ## Concrete inputs used by the claim theorems below -/

/-- An execution log carrying both offline markers (claim C1). -/
def c1log : List Char := chars
  "fetchFailedComponentList Total number of failed components for server name: srv1, bay 2 uuid: u-1 0\nAbsaroka Firmware update is complete for server: srv1"

/-- A record whose `Server.SUT Mode` already holds a non-empty value
(claim C2). -/
def c2dict : InfoDict :=
  { initialize_dictionary with
    server := { initialize_dictionary.server with sutMode := chars "AutoStage" } }

/-- A decoded request whose recovered `OsName` is empty (claim C2). -/
def c2req : RequestData :=
  { hostOS := some { osName := [], osVersion := chars "9.4" }, fwInventory := [] }

/-- A record with a previously recovered OS (claim C2). -/
def c2osDict : InfoDict :=
  { initialize_dictionary with
    server := { initialize_dictionary.server with os := chars "RHEL" } }

/-- A sequence item whose `InstalledVersion` list has two entries with
different versions and targets (claim C3). -/
def c3comp : SequenceComponent :=
  { packageVersion := none, filename := none
    installedVersion :=
      [ { version := some (chars "1.0"), target := some (chars "t1") },
        { version := some (chars "2.0"), target := some (chars "t2") } ] }

/-- A decoded dependency document containing just `c3comp` (claim C3). -/
def c3data : DependencyData :=
  { installSet := none, sequenceDetails := some [c3comp] }

/-- An install-set log whose last `"update_type":` value is `ONLINE`
(claim C4). -/
def c4ins : List Char := chars "\"update_type\": \"ONLINE\""

/-- An execution log whose final announced state is `Activated`
(claims C4 and C5 use distinct copies). -/
def c4dbg : List Char := chars "Updating iLO with fwInstallState: Activated"

/-- The execution-log line used by the C5 witness. -/
def c5line : List Char := chars "Updating iLO with fwInstallState: Activated"

/-- The matching status line used by the C6 witness. -/
def c6line : List Char := chars "FirmwareDriverBaselineSettings on server srv u1 is done"

/-- A non-matching line preceding it (claim C6). -/
def c6other : List Char := chars "some other line"

/-- The log whose last matching line is `c6line` (claim C6). -/
def c6lines : List (List Char) := [c6other, c6line]

/-- A log in which the brace balance of the span following the second uuid
occurrence never returns to zero — the closing brace of the decoded object
is cancelled by an opening brace inside a string literal — yet the span is
valid JSON (claim C7). -/
def c7content : List Char := chars "u1 and then u1 again \x7b\"a\":\"\x7b\"\x7d"

/-- A record carrying the uuid `u1` (claim C7). -/
def c7dict : InfoDict :=
  { initialize_dictionary with
    server := { initialize_dictionary.server with uuid := chars "u1" } }

/-- A record carrying the uuid `u1` (claim C8). -/
def c8dict : InfoDict :=
  { initialize_dictionary with
    server := { initialize_dictionary.server with uuid := chars "u1" } }

/-- A log containing the uuid exactly once (claim C8). -/
def c8content : List Char := chars "only one u1 here"

/-- A log whose SUT status section has distinct Mode and Version values
(claim C10). -/
def c10content : List Char := chars
  "Successfully got SUT status from server via RIS for u1, [Mode: Auto State: Disabled Version: 5.2.0 Type: x]"

/-! ## General lemmas about the text helpers -/

theorem leadsWith_iff (pat s : List Char) :
    leadsWith pat s = true ↔ ∃ r, s = pat ++ r := by
  induction pat generalizing s with
  | nil => simp [leadsWith]
  | cons p ps ih =>
    cases s with
    | nil => simp [leadsWith]
    | cons c cs =>
      simp only [leadsWith, Bool.and_eq_true, beq_iff_eq, ih, List.cons_append,
        List.cons.injEq]
      constructor
      · rintro ⟨hpc, r, hr⟩; exact ⟨r, hpc.symm, hr⟩
      · rintro ⟨r, hcp, hr⟩; exact ⟨hcp.symm, r, hr⟩

theorem splitAtFirst_single (c : Char) (pre rest : List Char) (h : c ∉ pre) :
    splitAtFirst [c] (pre ++ c :: rest) = some (pre, rest) := by
  induction pre with
  | nil =>
    simp only [List.nil_append, splitAtFirst, leadsWith]
    simp
  | cons x xs ih =>
    have hx : c ≠ x := fun he => h (he ▸ List.mem_cons_self x xs)
    have hxs : c ∉ xs := fun hm => h (List.mem_cons_of_mem x hm)
    simp only [List.cons_append, splitAtFirst, leadsWith]
    rw [if_neg (by simp [hx])]
    simp only [List.append_eq]
    rw [ih hxs]

theorem dropToOccur_none_drop (pat s : List Char) (h : dropToOccur pat s = none) :
    ∀ n, dropToOccur pat (s.drop n) = none := by
  induction s with
  | nil => intro n; simpa using h
  | cons c rest ih =>
    intro n
    simp only [dropToOccur] at h
    by_cases hl : leadsWith pat (c :: rest) = true
    · rw [if_pos hl] at h; exact absurd h (by simp)
    · rw [if_neg hl] at h
      cases n with
      | zero => simp [dropToOccur, hl, h]
      | succ m => exact ih h m

theorem splitAtLast_none_iff (pat s : List Char) :
    splitAtLast pat s = none ↔ dropToOccur pat s = none := by
  induction s with
  | nil => simp [splitAtLast, dropToOccur]
  | cons c rest ih =>
    simp only [splitAtLast, dropToOccur]
    cases hr : splitAtLast pat rest with
    | some pr =>
      obtain ⟨pre, post⟩ := pr
      constructor
      · intro h; simp at h
      · intro h
        by_cases hl : leadsWith pat (c :: rest) = true
        · rw [if_pos hl] at h; exact absurd h (by simp)
        · rw [if_neg hl] at h
          have h2 := ih.mpr h
          rw [hr] at h2
          exact absurd h2 (by simp)
    | none =>
      have hrest := ih.mp hr
      by_cases hl : leadsWith pat (c :: rest) = true
      · simp [hl]
      · simp [hl, hrest]

/-- `splitAtLast` really finds the LAST occurrence: it decomposes the text,
and no further occurrence of the (non-empty) pattern starts inside the
returned suffix. -/
theorem splitAtLast_sound (pat : List Char) (hp : pat ≠ []) :
    ∀ s pre post, splitAtLast pat s = some (pre, post) →
      s = pre ++ pat ++ post ∧ dropToOccur pat post = none := by
  intro s
  induction s with
  | nil =>
    intro pre post h
    have hl : leadsWith pat [] = false := by
      cases pat with
      | nil => exact absurd rfl hp
      | cons a b => rfl
    simp [splitAtLast, hl] at h
  | cons c rest ih =>
    intro pre post h
    simp only [splitAtLast] at h
    cases hr : splitAtLast pat rest with
    | some pr =>
      obtain ⟨pre', post'⟩ := pr
      rw [hr] at h
      simp only [Option.some.injEq, Prod.mk.injEq] at h
      obtain ⟨hpre, hpost⟩ := h
      obtain ⟨hs, hd⟩ := ih pre' post' hr
      subst hpre hpost
      exact ⟨by simp [hs], hd⟩
    | none =>
      rw [hr] at h
      by_cases hl : leadsWith pat (c :: rest) = true
      · rw [if_pos hl] at h
        simp only [Option.some.injEq, Prod.mk.injEq] at h
        obtain ⟨hpre, hpost⟩ := h
        obtain ⟨r, hdec⟩ := (leadsWith_iff pat (c :: rest)).mp hl
        have hdrop : (c :: rest).drop pat.length = r := by
          rw [hdec]; exact List.drop_left pat r
        have hnone : dropToOccur pat ((c :: rest).drop pat.length) = none := by
          cases pat with
          | nil => exact absurd rfl hp
          | cons p ps =>
            have : (c :: rest).drop (p :: ps).length = rest.drop ps.length := rfl
            rw [this]
            exact dropToOccur_none_drop _ _ ((splitAtLast_none_iff _ _).mp hr) ps.length
        subst hpre hpost
        constructor
        · rw [hdec]; simp [List.drop_left]
        · exact hnone
      · rw [if_neg hl] at h
        exact absurd h (by simp)

/-! ## Claim C1 — offline classifier -/

/-- Claim C1: the offline classifier is claimed to return `true` on an
execution log carrying both offline markers. The log `c1log` carries both
markers (first two conjuncts), yet `check_offline_firmware_update` returns
`false`: src/success-failure.py line 78 returns `False` on the success
branch as well, directly after printing the success message — the code
contradicts its own success diagnostic. -/
theorem c1_code_bug_eval :
    offline_fetch_ok c1log = true
    ∧ absaroka_ok c1log = true
    ∧ check_offline_firmware_update c1log = false := by decide

/-! ## Claim C4 — dispatch on the recovered update type -/

/-- Claim C4 counterexample: the dispatch comparison is NOT
case-insensitive. The install-set log `c4ins` carries the update-type value
`ONLINE` (case-insensitively equal to `online`), and the execution log
`c4dbg` would satisfy the online classifier, yet classification returns
`false`: src/success-failure.py line 101 compares only against the exact
strings `Online` and `online`. -/
theorem c4_counterexample :
    extract_last_update_type c4ins = some (chars "ONLINE")
    ∧ (chars "ONLINE").map Char.toLower = chars "online"
    ∧ check_firmware_update_status (splitLines c4dbg) = true
    ∧ determine_update_type_and_check c4ins c4dbg = false := by decide

/-- Claim C4 as amended: the dispatch value is the quoted token after the
LAST occurrence of the `"update_type":` marker (hypothesis `hsplit`, whose
reading as the last occurrence is `splitAtLast_sound`); the comparison is
by exact equality against `Online`/`online`/`Offline`/`offline` only, and
any other value — or an absent marker — classifies as `false`, never an
error. -/
theorem c4_fixed (a b1 v b2 dbg : List Char)
    (hsplit : splitAtLast ukey (a ++ ukey ++ (b1 ++ dquote :: (v ++ dquote :: b2)))
        = some (a, b1 ++ dquote :: (v ++ dquote :: b2)))
    (hb1 : dquote ∉ b1) (hv : dquote ∉ v) :
    extract_last_update_type (a ++ ukey ++ (b1 ++ dquote :: (v ++ dquote :: b2))) = some v
    ∧ ((v ≠ chars "Online" ∧ v ≠ chars "online" ∧ v ≠ chars "Offline" ∧ v ≠ chars "offline") →
        determine_update_type_and_check (a ++ ukey ++ (b1 ++ dquote :: (v ++ dquote :: b2))) dbg
          = false)
    ∧ (∀ log2, extract_last_update_type log2 = none →
        determine_update_type_and_check log2 dbg = false) := by
  have hext : extract_last_update_type (a ++ ukey ++ (b1 ++ dquote :: (v ++ dquote :: b2)))
      = some v := by
    simp only [extract_last_update_type, hsplit,
      splitAtFirst_single dquote b1 (v ++ dquote :: b2) hb1,
      splitAtFirst_single dquote v b2 hv]
  refine ⟨hext, ?_, ?_⟩
  · rintro ⟨n1, n2, n3, n4⟩
    simp only [determine_update_type_and_check, hext]
    rw [if_neg (fun h => h.elim n1 n2), if_neg (fun h => h.elim n3 n4)]
  · intro log2 h2
    simp only [determine_update_type_and_check, h2]

/-- Claim C4 witness: the amended theorem applied at a concrete log whose
last update-type value is the unrecognized `Custom`. -/
theorem c4_fixed_witness :
    determine_update_type_and_check
      (chars "x " ++ ukey ++ (chars " " ++ dquote :: (chars "Custom" ++ dquote :: [])))
      c4dbg = false :=
  (c4_fixed (chars "x ") (chars " ") (chars "Custom") [] c4dbg
      (by decide) (by decide) (by decide)).2.1
    ⟨by decide, by decide, by decide, by decide⟩

/-! ## Claim C5 — online classifier -/

theorem getLast?_filterMap {α β : Type} (f : α → Option β) (l : List α) :
    (l.filterMap f).getLast? = ((l.filter (fun a => (f a).isSome)).getLast?).bind f := by
  induction l using List.reverseRecOn with
  | nil => rfl
  | append_singleton l a ih =>
    rw [List.filterMap_append, List.filter_append]
    cases hf : f a with
    | some b =>
      have h1 : List.filterMap f [a] = [b] := by simp [List.filterMap, hf]
      have h2 : List.filter (fun a => (f a).isSome) [a] = [a] := by
        simp [List.filter, hf]
      rw [h1, h2, List.getLast?_concat, List.getLast?_concat]
      simp [hf]
    | none =>
      have h1 : List.filterMap f [a] = [] := by simp [List.filterMap, hf]
      have h2 : List.filter (fun a => (f a).isSome) [a] = [] := by
        simp [List.filter, hf]
      rw [h1, h2, List.append_nil, List.append_nil, ih]

/-- Claim C5: with `updateType = Online`, classification succeeds iff some
line announces a firmware install state and the state captured on the LAST
such line is exactly `Activated`; a log with no such line classifies as
`false` (not an error). -/
theorem c5_online_iff (lines : List (List Char)) :
    (check_firmware_update_status lines = true ↔
      ((lines.filter (fun l => (fwLineState l).isSome)).getLast?).bind fwLineState
        = some (chars "Activated"))
    ∧ ((∀ l ∈ lines, fwLineState l = none) → check_firmware_update_status lines = false) := by
  constructor
  · simp only [check_firmware_update_status]
    rw [getLast?_filterMap]
    cases hx : ((lines.filter (fun l => (fwLineState l).isSome)).getLast?) with
    | none => simp
    | some l =>
      simp only [Option.bind]
      cases hf : fwLineState l with
      | none => simp
      | some st =>
        constructor
        · intro h
          simp only [decide_eq_true_eq] at h
          rw [h]
        · intro h
          simp only [Option.some.injEq] at h
          simp [h]
  · intro h
    have hnil : lines.filterMap fwLineState = [] := by
      rw [List.filterMap_eq_nil_iff]
      exact h
    simp only [check_firmware_update_status, hnil]
    rfl

/-- Claim C5 witness: the iff applied at a one-line log whose only state
announcement reports `Activated`. -/
theorem c5_online_iff_witness : check_firmware_update_status [c5line] = true :=
  (c5_online_iff [c5line]).1.mpr (by decide)

/-! ## Claim C6 — install-state recovery and the Unknown sentinel -/

theorem findInstallState_concat (uuid : List Char) (pre post : List (List Char))
    (l v : List Char)
    (hpre : ∀ x ∈ pre, installStateOfLine uuid x = none)
    (hl : installStateOfLine uuid l = some v) :
    findInstallState uuid (pre ++ l :: post) = some v := by
  induction pre with
  | nil => simp [findInstallState, hl]
  | cons x xs ih =>
    have hx : installStateOfLine uuid x = none := hpre x (List.mem_cons_self x xs)
    have hxs : ∀ y ∈ xs, installStateOfLine uuid y = none :=
      fun y hy => hpre y (List.mem_cons_of_mem x hy)
    simp [findInstallState, hx, ih hxs]

/-- Claim C6: when the last line — scanning from the end — that matches the
`FirmwareDriverBaselineSettings on server` marker (with this uuid, and with
the ` is ` capture succeeding) yields the stripped capture `cap`, the
recovered `Install state` field is the nested quoted `State` value of `cap`
when one exists and the literal sentinel `Unknown` (never the empty string)
otherwise. -/
theorem c6_install_state (lines : List (List Char)) (uuid : List Char) (d : InfoDict)
    (pre post : List (List Char)) (l cap : List Char)
    (hrev : lines.reverse = pre ++ l :: post)
    (hpre : ∀ x ∈ pre, fdbsCapture uuid x = none)
    (hl : fdbsCapture uuid l = some cap) :
    (extract_firmware_log_info lines uuid d).firmwareUpdate.installState
      = (stateOfCapture cap).getD (chars "Unknown")
    ∧ chars "Unknown" ≠ ([] : List Char) := by
  constructor
  · have hline : installStateOfLine uuid l
        = some ((stateOfCapture cap).getD (chars "Unknown")) := by
      simp [installStateOfLine, hl]
    have hpre2 : ∀ x ∈ pre, installStateOfLine uuid x = none := by
      intro x hx
      simp [installStateOfLine, hpre x hx]
    have hfind : findInstallState uuid lines.reverse
        = some ((stateOfCapture cap).getD (chars "Unknown")) := by
      rw [hrev]
      exact findInstallState_concat uuid pre post l _ hpre2 hline
    simp [extract_firmware_log_info, hfind]
  · decide

/-- Claim C6 witness: the last matching line of `c6lines` carries no nested
quoted State value, so the recovered field is the `Unknown` sentinel. -/
theorem c6_install_state_witness :
    (extract_firmware_log_info c6lines (chars "u1") initialize_dictionary).firmwareUpdate.installState
      = (stateOfCapture (chars "done")).getD (chars "Unknown")
    ∧ chars "Unknown" ≠ ([] : List Char) :=
  c6_install_state c6lines (chars "u1") initialize_dictionary [] [c6other]
    c6line (chars "done") (by decide) (by intro x hx; simp at hx) (by decide)

/-! ## Claim C2 — merge semantics of the recovery passes -/

theorem iloInvStep_preserves_os (acc : InfoDict) (item : FwInvItem) :
    (iloInvStep acc item).server.os = acc.server.os
    ∧ (iloInvStep acc item).server.osVersion = acc.server.osVersion := by
  unfold iloInvStep
  split <;> try exact ⟨rfl, rfl⟩
  split <;> try exact ⟨rfl, rfl⟩
  split <;> try exact ⟨rfl, rfl⟩
  split <;> try exact ⟨rfl, rfl⟩
  split <;> exact ⟨rfl, rfl⟩

theorem iloFold_preserves_os (items : List FwInvItem) (acc : InfoDict) :
    (items.foldl iloInvStep acc).server.os = acc.server.os
    ∧ (items.foldl iloInvStep acc).server.osVersion = acc.server.osVersion := by
  induction items generalizing acc with
  | nil => exact ⟨rfl, rfl⟩
  | cons item rest ih =>
    simp only [List.foldl_cons]
    obtain ⟨h1, h2⟩ := ih (iloInvStep acc item)
    obtain ⟨h3, h4⟩ := iloInvStep_preserves_os acc item
    exact ⟨h1.trans h3, h2.trans h4⟩

/-- Claim C2 counterexample: a record whose `Server.SUT Mode` holds the
non-empty value `AutoStage` does NOT retain it across a firmware-log
recovery pass whose result for that field is empty — src/2.py line 278
writes the recovered value unconditionally, so the field ends empty. -/
theorem c2_counterexample :
    c2dict.server.sutMode = chars "AutoStage"
    ∧ chars "AutoStage" ≠ ([] : List Char)
    ∧ (extract_firmware_log_info [] (chars "u1") c2dict).server.sutMode = [] := by decide

/-- Claim C2 as amended: the OS write of `extract_ilo_model` is a guarded
merge — an empty recovered `OsName` leaves `Server.OS`/`OsVersion`
untouched (src/2.py line 89) — but `extract_firmware_log_info` writes its
fields unconditionally (src/2.py lines 274-281), so a recovery pass whose
result for a SUT field is the empty string overwrites any previous value:
on a log with no matching lines the recovered `SUT Mode` is empty and the
field is emptied regardless of the record passed in. -/
theorem c2_fixed (req : RequestData) (hos : HostOS) (d d2 : InfoDict) (uuid : List Char)
    (h1 : req.hostOS = some hos) (h2 : hos.osName = []) :
    (extract_ilo_model_apply req d).server.os = d.server.os
    ∧ (extract_ilo_model_apply req d).server.osVersion = d.server.osVersion
    ∧ (extract_firmware_log_info [] uuid d2).server.sutMode = [] := by
  have hd1 : (extract_ilo_model_apply req d) = req.fwInventory.foldl iloInvStep d := by
    simp [extract_ilo_model_apply, h1, h2]
  obtain ⟨h3, h4⟩ := iloFold_preserves_os req.fwInventory d
  rw [hd1]
  exact ⟨h3, h4, rfl⟩

/-- Claim C2 witness: the amended theorem applied at a decoded request whose
recovered `OsName` is empty and a record with a previously recovered OS. -/
theorem c2_fixed_witness :
    (extract_ilo_model_apply c2req c2osDict).server.os = c2osDict.server.os
    ∧ (extract_ilo_model_apply c2req c2osDict).server.osVersion = c2osDict.server.osVersion
    ∧ (extract_firmware_log_info [] (chars "u1") c2osDict).server.sutMode = [] :=
  c2_fixed c2req { osName := [], osVersion := chars "9.4" } c2osDict c2osDict
    (chars "u1") rfl rfl

/-! ## Claims C3 and C9 — component-list population -/

theorem getLast?_decomp {α : Type} (l : List α) (a : α) (h : l.getLast? = some a) :
    ∃ l2, l = l2 ++ [a] := by
  induction l with
  | nil => simp at h
  | cons x xs ih =>
    cases xs with
    | nil =>
      simp only [List.getLast?_singleton, Option.some.injEq] at h
      exact ⟨[], by simp [h]⟩
    | cons y ys =>
      rw [List.getLast?_cons_cons] at h
      obtain ⟨l2, hl2⟩ := ih h
      exact ⟨x :: l2, by rw [List.cons_append, ← hl2]⟩

theorem componentsFold (seq : List SequenceComponent) (acc : InfoDict) :
    ((seq.foldl
        (fun acc comp => { acc with components := acc.components ++ [mkComponent comp] })
        acc).components)
      = acc.components ++ seq.map mkComponent := by
  induction seq generalizing acc with
  | nil => simp
  | cons comp rest ih =>
    simp only [List.foldl_cons, List.map_cons]
    rw [ih]
    simp

/-- The component list produced by `process_dependency_failure_json` is a
function of the decoded document alone: the previous list is cleared and
one entry per `sequence_details` item is appended. -/
theorem components_process (data : DependencyData) (d : InfoDict) :
    (process_dependency_failure_json data d).components
      = (data.sequenceDetails.getD []).map mkComponent := by
  unfold process_dependency_failure_json
  cases data.sequenceDetails with
  | none => rfl
  | some seq =>
    simp only [Option.getD_some]
    rw [componentsFold]
    rfl

/-- Claim C3 counterexample: a sequence item with TWO installed-version
entries populates `Installed Version`/`TargetGUID` from the SECOND (last)
entry — the loop at src/2.py lines 321-325 overwrites on every entry — not
from the first entry as claimed. -/
theorem c3_counterexample :
    (process_dependency_failure_json c3data initialize_dictionary).components
      = [{ installedVersion := chars "2.0", toVersion := [], deviceClass := [],
           targetGUID := chars "t2", fileName := [] }]
    ∧ chars "2.0" ≠ chars "1.0"
    ∧ chars "t2" ≠ chars "t1" := by decide

/-- Claim C3 as amended: each populated component's `Installed Version` and
`TargetGUID` equal the `Version` and `Target` of the LAST entry of the
item's `InstalledVersion` list that carries the respective key (for a last
entry carrying both, that entry wins outright), and the component list is
rebuilt from the document alone. -/
theorem c3_fixed (data : DependencyData) (d : InfoDict) (comp : SequenceComponent)
    (e : InstalledVersionEntry) (v t : List Char)
    (h1 : comp.installedVersion.getLast? = some e)
    (h2 : e.version = some v) (h3 : e.target = some t) :
    (mkComponent comp).installedVersion = v
    ∧ (mkComponent comp).targetGUID = t
    ∧ (process_dependency_failure_json data d).components
        = (data.sequenceDetails.getD []).map mkComponent := by
  obtain ⟨l2, hl2⟩ := getLast?_decomp comp.installedVersion e h1
  have hne : comp.installedVersion.isEmpty = false := by
    rw [hl2]
    cases l2 <;> rfl
  have hfold :
      (comp.installedVersion.foldl
        (fun acc e =>
          (match e.version with | some v => v | none => acc.1,
           match e.target with | some t => t | none => acc.2))
        ([], [])) = (v, t) := by
    rw [hl2, List.foldl_append]
    simp [h2, h3]
  constructor
  · simp [mkComponent, hne, hfold]
  constructor
  · simp [mkComponent, hne, hfold]
  · exact components_process data d

/-- Claim C3 witness: the amended theorem applied at the two-entry item
`c3comp`. -/
theorem c3_fixed_witness :
    (mkComponent c3comp).installedVersion = chars "2.0"
    ∧ (mkComponent c3comp).targetGUID = chars "t2"
    ∧ (process_dependency_failure_json c3data initialize_dictionary).components
        = (c3data.sequenceDetails.getD []).map mkComponent :=
  c3_fixed c3data initialize_dictionary c3comp
    { version := some (chars "2.0"), target := some (chars "t2") }
    (chars "2.0") (chars "t2") (by decide) rfl rfl

/-- Claim C9: component-list population is idempotent by replacement —
processing the same decoded dependency document twice yields the component
list of processing it once (the list is rebuilt from the document each
time, never appended to). -/
theorem c9_components_idempotent (data : DependencyData) (d : InfoDict) :
    (process_dependency_failure_json data
        (process_dependency_failure_json data d)).components
      = (process_dependency_failure_json data d).components := by
  rw [components_process, components_process]

/-! ## Claim C8 — missing second uuid occurrence -/

theorem occurCount_of_dropToOccur (pat : List Char) (hp : pat ≠ []) :
    ∀ s t, dropToOccur pat s = some t →
      occurCount pat s = 1 + occurCount pat (t.drop pat.length) := by
  intro s
  induction s with
  | nil =>
    intro t h
    have hl : leadsWith pat [] = false := by
      cases pat with
      | nil => exact absurd rfl hp
      | cons a b => rfl
    simp [dropToOccur, hl] at h
  | cons c rest ih =>
    intro t h
    cases pat with
    | nil => exact absurd rfl hp
    | cons p ps =>
      simp only [dropToOccur] at h
      by_cases hl : leadsWith (p :: ps) (c :: rest) = true
      · rw [if_pos hl] at h
        simp only [Option.some.injEq] at h
        subst h
        simp only [occurCount, if_pos hl]
        rfl
      · rw [if_neg hl] at h
        simp only [occurCount, if_neg hl]
        exact ih t h

theorem occurCount_pos (pat s t : List Char) (hp : pat ≠ [])
    (h : dropToOccur pat s = some t) : 1 ≤ occurCount pat s := by
  rw [occurCount_of_dropToOccur pat hp s t h]
  omega

theorem occurCount_eq_zero (pat : List Char) (hp : pat ≠ []) :
    ∀ s, dropToOccur pat s = none → occurCount pat s = 0 := by
  intro s
  induction s with
  | nil =>
    intro _
    cases pat with
    | nil => exact absurd rfl hp
    | cons p ps => simp [occurCount]
  | cons c rest ih =>
    intro h
    cases pat with
    | nil => exact absurd rfl hp
    | cons p ps =>
      simp only [dropToOccur] at h
      by_cases hl : leadsWith (p :: ps) (c :: rest) = true
      · rw [if_pos hl] at h; exact absurd h (by simp)
      · rw [if_neg hl] at h
        simp only [occurCount, if_neg hl]
        exact ih h

/-- Claim C8: on a log in which the server uuid occurs fewer than two times,
`extract_isr` fails with a reported error and the record — in particular
its `Install set Response` group — is left exactly as it was: the raise
happens before any field write. -/
theorem c8_no_second_uuid (content : List Char) (d : InfoDict)
    (h1 : d.server.uuid ≠ [])
    (h2 : occurCount d.server.uuid content < 2) :
    (extract_isr content d).1.isSome = true ∧ (extract_isr content d).2 = d := by
  unfold extract_isr
  rw [if_neg (by simp [List.isEmpty_iff, h1])]
  split
  · exact ⟨rfl, rfl⟩
  · rename_i t heq1
    split
    · exact ⟨rfl, rfl⟩
    · rename_i t2 heq2
      exfalso
      have e1 := occurCount_of_dropToOccur d.server.uuid h1 content t heq1
      have e2 := occurCount_pos d.server.uuid _ t2 h1 heq2
      omega

/-- Claim C8 witness: the theorem applied at a log carrying the uuid once. -/
theorem c8_no_second_uuid_witness :
    (extract_isr c8content c8dict).1.isSome = true
    ∧ (extract_isr c8content c8dict).2 = c8dict :=
  c8_no_second_uuid c8content c8dict (by decide)
    (by
      have ha : dropToOccur c8dict.server.uuid c8content = some (chars "u1 here") := by
        decide
      have hb : dropToOccur c8dict.server.uuid
          ((chars "u1 here").drop c8dict.server.uuid.length) = none := by decide
      rw [occurCount_of_dropToOccur c8dict.server.uuid (by decide) c8content _ ha,
        occurCount_eq_zero c8dict.server.uuid (by decide) _ hb]
      omega)

/-! ## Claim C7 — brace-balanced span extraction -/

theorem braceNet_cons (c : Char) (q : List Char) :
    braceNet (c :: q) = braceDelta c + braceNet q := rfl

theorem braceDelta_open : braceDelta openBrace = 1 := by decide

theorem braceDelta_close : braceDelta closeBrace = -1 := by decide

theorem braceDelta_other (c : Char) (h1 : ¬ c = openBrace) (h2 : ¬ c = closeBrace) :
    braceDelta c = 0 := by
  simp [braceDelta, h1, h2]

theorem braceLoop_cons_open (rest : List Char) (n : Int) :
    braceLoop (openBrace :: rest) n = openBrace :: braceLoop rest (n + 1) := by
  simp [braceLoop]

theorem braceLoop_cons_close (rest : List Char) (n : Int) :
    braceLoop (closeBrace :: rest) n
      = if n - 1 = 0 then [closeBrace] else closeBrace :: braceLoop rest (n - 1) := by
  have h : ¬ (closeBrace = openBrace) := by decide
  simp [braceLoop, h]

theorem braceLoop_cons_other (c : Char) (rest : List Char) (n : Int)
    (h1 : ¬ c = openBrace) (h2 : ¬ c = closeBrace) :
    braceLoop (c :: rest) n = c :: braceLoop rest n := by
  simp [braceLoop, h1, h2]

theorem braceLoop_prefix : ∀ (s : List Char) (n : Int), ∃ q, s = braceLoop s n ++ q := by
  intro s
  induction s with
  | nil => intro n; exact ⟨[], rfl⟩
  | cons c rest ih =>
    intro n
    by_cases h1 : c = openBrace
    · subst h1
      obtain ⟨q, hq⟩ := ih (n + 1)
      exact ⟨q, by rw [braceLoop_cons_open, List.cons_append, ← hq]⟩
    · by_cases h2 : c = closeBrace
      · subst h2
        rw [braceLoop_cons_close]
        by_cases h3 : n - 1 = 0
        · rw [if_pos h3]
          exact ⟨rest, rfl⟩
        · rw [if_neg h3]
          obtain ⟨q, hq⟩ := ih (n - 1)
          exact ⟨q, by rw [List.cons_append, ← hq]⟩
      · obtain ⟨q, hq⟩ := ih n
        exact ⟨q, by rw [braceLoop_cons_other c rest n h1 h2, List.cons_append, ← hq]⟩

theorem braceLoop_proper : ∀ (s : List Char) (n : Int), 0 < n →
    ∀ q r, braceLoop s n = q ++ r → r ≠ [] → 0 < n + braceNet q := by
  intro s
  induction s with
  | nil =>
    intro n hn q r hqr hr
    simp only [braceLoop] at hqr
    have h0 := List.append_eq_nil.mp hqr.symm
    exact absurd h0.2 hr
  | cons c rest ih =>
    intro n hn q r hqr hr
    by_cases h1 : c = openBrace
    · subst h1
      rw [braceLoop_cons_open] at hqr
      cases q with
      | nil => simpa [braceNet] using hn
      | cons x q' =>
        simp only [List.cons_append, List.cons.injEq] at hqr
        obtain ⟨hx, hrest⟩ := hqr
        have hq' := ih (n + 1) (by omega) q' r hrest hr
        rw [braceNet_cons, ← hx, braceDelta_open]
        omega
    · by_cases h2 : c = closeBrace
      · subst h2
        rw [braceLoop_cons_close] at hqr
        by_cases h3 : n - 1 = 0
        · rw [if_pos h3] at hqr
          cases q with
          | nil => simpa [braceNet] using hn
          | cons x q' =>
            simp only [List.cons_append, List.cons.injEq] at hqr
            obtain ⟨hx, hrest⟩ := hqr
            have h0 := List.append_eq_nil.mp hrest.symm
            exact absurd h0.2 hr
        · rw [if_neg h3] at hqr
          cases q with
          | nil => simpa [braceNet] using hn
          | cons x q' =>
            simp only [List.cons_append, List.cons.injEq] at hqr
            obtain ⟨hx, hrest⟩ := hqr
            have hq' := ih (n - 1) (by omega) q' r hrest hr
            rw [braceNet_cons, ← hx, braceDelta_close]
            omega
      · rw [braceLoop_cons_other c rest n h1 h2] at hqr
        cases q with
        | nil => simpa [braceNet] using hn
        | cons x q' =>
          simp only [List.cons_append, List.cons.injEq] at hqr
          obtain ⟨hx, hrest⟩ := hqr
          have hq' := ih n hn q' r hrest hr
          rw [braceNet_cons, ← hx, braceDelta_other c h1 h2]
          omega

theorem braceLoop_ends : ∀ (s : List Char) (n : Int), 0 < n →
    (n + braceNet (braceLoop s n) = 0)
    ∨ (braceLoop s n = s ∧ 0 < n + braceNet s) := by
  intro s
  induction s with
  | nil =>
    intro n hn
    right
    exact ⟨rfl, by simpa [braceNet] using hn⟩
  | cons c rest ih =>
    intro n hn
    by_cases h1 : c = openBrace
    · subst h1
      rcases ih (n + 1) (by omega) with h | ⟨hL, hpos⟩
      · left
        rw [braceLoop_cons_open, braceNet_cons, braceDelta_open]
        omega
      · right
        constructor
        · rw [braceLoop_cons_open, hL]
        · rw [braceNet_cons, braceDelta_open]
          omega
    · by_cases h2 : c = closeBrace
      · subst h2
        by_cases h3 : n - 1 = 0
        · left
          rw [braceLoop_cons_close, if_pos h3, braceNet_cons, braceDelta_close]
          simp [braceNet]
          omega
        · rcases ih (n - 1) (by omega) with h | ⟨hL, hpos⟩
          · left
            rw [braceLoop_cons_close, if_neg h3, braceNet_cons, braceDelta_close]
            omega
          · right
            constructor
            · rw [braceLoop_cons_close, if_neg h3, hL]
            · rw [braceNet_cons, braceDelta_close]
              omega
      · rcases ih n hn with h | ⟨hL, hpos⟩
        · left
          rw [braceLoop_cons_other c rest n h1 h2, braceNet_cons, braceDelta_other c h1 h2]
          omega
        · right
          constructor
          · rw [braceLoop_cons_other c rest n h1 h2, hL]
          · rw [braceNet_cons, braceDelta_other c h1 h2]
            omega

theorem braceLoop_shortest : ∀ (s : List Char) (n : Int), 0 < n →
    ∀ p2 r2, s = p2 ++ r2 → n + braceNet p2 = 0 →
      (braceLoop s n).length ≤ p2.length := by
  intro s
  induction s with
  | nil =>
    intro n hn p2 r2 hs hbal
    have h0 : p2 = [] := (List.append_eq_nil.mp hs.symm).1
    subst h0
    simp [braceNet] at hbal
    omega
  | cons c rest ih =>
    intro n hn p2 r2 hs hbal
    cases p2 with
    | nil =>
      simp [braceNet] at hbal
      omega
    | cons x p2' =>
      simp only [List.cons_append, List.cons.injEq] at hs
      obtain ⟨hcx, hrest⟩ := hs
      subst hcx
      by_cases h1 : c = openBrace
      · subst h1
        rw [braceLoop_cons_open, List.length_cons, List.length_cons]
        rw [braceNet_cons, braceDelta_open] at hbal
        have := ih (n + 1) (by omega) p2' r2 hrest (by omega)
        omega
      · by_cases h2 : c = closeBrace
        · subst h2
          rw [braceNet_cons, braceDelta_close] at hbal
          rw [braceLoop_cons_close]
          by_cases h3 : n - 1 = 0
          · rw [if_pos h3]
            simp
          · rw [if_neg h3, List.length_cons, List.length_cons]
            have := ih (n - 1) (by omega) p2' r2 hrest (by omega)
            omega
        · rw [braceLoop_cons_other c rest n h1 h2, List.length_cons, List.length_cons]
          rw [braceNet_cons, braceDelta_other c h1 h2] at hbal
          have := ih n hn p2' r2 hrest (by omega)
          omega

/-- Claim C7 as amended: the accumulated span is always an initial segment
of the text; when its net balance is zero it is exactly the shortest
non-empty balanced prefix, with strictly positive balance at every proper
non-empty prefix; but when the text ends before the balance returns to
zero the loop yields the ENTIRE remaining text — an unbalanced span handed
to the JSON decoder — so extraction fails only if that span fails to
decode. -/
theorem c7_fixed (rest : List Char) :
    (∃ q, openBrace :: rest = braceSpan (openBrace :: rest) ++ q)
    ∧ (braceNet (braceSpan (openBrace :: rest)) = 0
        ∨ braceSpan (openBrace :: rest) = openBrace :: rest)
    ∧ (∀ q r, braceSpan (openBrace :: rest) = q ++ r → q ≠ [] → r ≠ [] →
        0 < braceNet q)
    ∧ (∀ p2 r2, openBrace :: rest = p2 ++ r2 → p2 ≠ [] → braceNet p2 = 0 →
        (braceSpan (openBrace :: rest)).length ≤ p2.length) := by
  have hspan : braceSpan (openBrace :: rest) = openBrace :: braceLoop rest 1 := by
    unfold braceSpan
    rw [braceLoop_cons_open]
    norm_num
  refine ⟨?_, ?_, ?_, ?_⟩
  · obtain ⟨q, hq⟩ := braceLoop_prefix rest 1
    exact ⟨q, by rw [hspan, List.cons_append, ← hq]⟩
  · rcases braceLoop_ends rest 1 (by norm_num) with h | ⟨hL, _⟩
    · left
      rw [hspan, braceNet_cons, braceDelta_open]
      omega
    · right
      rw [hspan, hL]
  · intro q r hqr hq hr
    rw [hspan] at hqr
    cases q with
    | nil => exact absurd rfl hq
    | cons x q' =>
      simp only [List.cons_append, List.cons.injEq] at hqr
      obtain ⟨hx, hrest⟩ := hqr
      have h0 := braceLoop_proper rest 1 (by norm_num) q' r hrest hr
      rw [braceNet_cons, ← hx, braceDelta_open]
      omega
  · intro p2 r2 hs hp2 hbal
    cases p2 with
    | nil => exact absurd rfl hp2
    | cons x p2' =>
      simp only [List.cons_append, List.cons.injEq] at hs
      obtain ⟨hx, hrest⟩ := hs
      rw [braceNet_cons, ← hx, braceDelta_open] at hbal
      have h0 := braceLoop_shortest rest 1 (by norm_num) p2' r2 hrest (by omega)
      rw [hspan]
      simp only [List.length_cons]
      omega

/-- Claim C7 counterexample: on `c7content` the brace balance of the span
following the second uuid occurrence never returns to zero — the span
equals the entire remainder and its net balance is `1` — yet extraction
SUCCEEDS (no error is reported and the response fields are written),
because the unbalanced span is valid JSON: the spare opening brace sits
inside a string literal. This refutes "extraction fails rather than
yielding an unbalanced span". -/
theorem c7_counterexample :
    (extract_isr c7content c7dict).1 = none
    ∧ (extract_isr c7content c7dict).2.installSetResponse.sumVersion = chars "sum service"
    ∧ isrSpan (chars "u1") c7content = isrRemainder (chars "u1") c7content
    ∧ (isrSpan (chars "u1") c7content).map braceNet = some 1 := by decide

/-- Claim C7 witness: the amended theorem applied at the balanced text
consisting of one opening and one closing brace. -/
theorem c7_fixed_witness :
    0 < braceNet [openBrace]
    ∧ (braceSpan (openBrace :: [closeBrace])).length ≤ 2 :=
  ⟨(c7_fixed [closeBrace]).2.2.1 [openBrace] [closeBrace]
      (by decide) (by decide) (by decide),
   (c7_fixed [closeBrace]).2.2.2 [openBrace, closeBrace] []
      (by decide) (by decide) (by decide)⟩

/-! ## Claim C10 — fallback SUT recovery assigns the Mode capture -/

/-- Claim C10: when the first SUT status section is found and both the
`Mode:` and `Version:` sub-patterns match it, the returned
`SUT Running Version` equals the stripped MODE capture — src/2.py line 378
reads `mode_match.group(1)` where the Version capture was intended. -/
theorem c10_version_from_mode (content uuid sect m vcap : List Char)
    (hsect : sutSection content uuid = some sect)
    (hm : searchPat (chars "Mode: ") (capStop 'S' (chars "State:")) sect = some m)
    (hv : searchPat (chars "Version: ") (capStop 'T' (chars "Type:")) sect = some vcap) :
    ∃ r, extract_sut_info_from_log_content content uuid = some r
      ∧ r.version = strip m := by
  simp only [extract_sut_info_from_log_content, hsect, hm, hv]
  exact ⟨_, rfl, rfl⟩

/-- Claim C10 witness: the theorem applied at `c10content`, whose section
carries Mode `Auto` and Version `5.2.0`; the returned running version is
the Mode value `Auto`. -/
theorem c10_version_from_mode_witness :
    ∃ r, extract_sut_info_from_log_content c10content (chars "u1") = some r
      ∧ r.version = strip (chars "Auto ") :=
  c10_version_from_mode c10content (chars "u1")
    (chars "Mode: Auto State: Disabled Version: 5.2.0 Type: x")
    (chars "Auto ") (chars "5.2.0 ") (by decide) (by decide) (by decide)
